import Mathlib

/-!
Verification of the HTML-to-Markdown conversion core of the ChatGPT
conversation exporter.  The definitions below are a shallow embedding of the
source script: `convertTableToMarkdown`, `escapeMarkdown`,
`collapseWhitespace`, `isBlank` and the recursive `processNode` dispatcher
are transcribed function by function.  DOM nodes are modelled as an
immutable tree; the dynamic DOM lookups of the source
(`node.parentElement`, `node.nextSibling`, `isInsideListItem`,
`[...parent.children].indexOf(node)`) are threaded down the recursion as an
explicit context record, computed at the call sites that own the
corresponding information, which is observably equivalent for a tree walked
from a detached root (the source walks a detached clone, so the root has no
parent, no siblings and no ancestors).
-/

/-- Whitespace in the sense of the JavaScript regex class `\s` and of
`String.prototype.trim` (ASCII whitespace, NBSP, BOM, the Unicode space
separators and the two line separators). -/
def isJsWhitespace (c : Char) : Bool :=
  c == ' ' || c == '\t' || c == '\n' || c == '\r' ||
  c.toNat == 0x0b || c.toNat == 0x0c || c.toNat == 0xa0 || c.toNat == 0x1680 ||
  (0x2000 ≤ c.toNat && c.toNat ≤ 0x200a) || c.toNat == 0x2028 || c.toNat == 0x2029 ||
  c.toNat == 0x202f || c.toNat == 0x205f || c.toNat == 0x3000 || c.toNat == 0xfeff

/-- JavaScript `String.prototype.trim`: strip leading and trailing
whitespace. -/
def jsTrim (s : String) : String :=
  String.mk (((s.toList.dropWhile isJsWhitespace).reverse.dropWhile isJsWhitespace).reverse)

/-- JavaScript `replace`/`replaceAll` with a single-character global
pattern: every occurrence of the character `c` is replaced by `r`.  All
global character replacements of the source (`\\`, `*`, backtick, `[`, `]`,
`_`, `|`, `"`) are instances of this. -/
def replaceChar (c : Char) (r : String) (s : String) : String :=
  String.mk (s.toList.foldr (fun ch acc => if ch == c then r.toList ++ acc else ch :: acc) [])

/-- Split a string at every newline character, the semantics of
JavaScript `split('\n')` (an empty string yields one empty field). -/
def splitLinesGo : List Char → List Char → List String
  | [], acc => [String.mk acc.reverse]
  | c :: rest, acc =>
    if c == '\n' then String.mk acc.reverse :: splitLinesGo rest []
    else splitLinesGo rest (c :: acc)

/-- Split a string on `'\n'`, JavaScript `split('\n')`. -/
def splitLines (s : String) : List String :=
  splitLinesGo s.toList []

/-- JavaScript `Array.prototype.join`: concatenate with a separator, empty
list giving the empty string. -/
def joinSep (sep : String) : List String → String
  | [] => ""
  | [x] => x
  | x :: xs => x ++ sep ++ joinSep sep xs

/-- JavaScript line terminators: LF, CR, U+2028 LINE SEPARATOR and U+2029
PARAGRAPH SEPARATOR; with the regex `m` flag, `^` matches at the start of
the input and immediately after any of these. -/
def isLineTerminator (c : Char) : Bool :=
  c == '\n' || c == '\r' || c.toNat == 0x2028 || c.toNat == 0x2029

/-- Worker for `applyLines`: rewrite each maximal terminator-free run with
`f`, keeping every line terminator in place (the accumulator holds the
current run, reversed). -/
def applyLinesGo (f : String → String) : List Char → List Char → List Char
  | acc, [] => (f (String.mk acc.reverse)).toList
  | acc, c :: rest =>
    if isLineTerminator c then
      (f (String.mk acc.reverse)).toList ++ c :: applyLinesGo f [] rest
    else
      applyLinesGo f (c :: acc) rest

/-- Apply a per-line rewriting at every line start of a string.  This
models a JavaScript `replace` with the `gm` flags whose pattern is
anchored at `^`: with the `m` flag, `^` matches at the start of the input
and after every line terminator (LF, CR, U+2028, U+2029), so each
terminator-free run is rewritten and the terminators themselves are kept.
(None of the anchored patterns of the source can match across or consume
a terminator, and none of their replacements introduce one, so rewriting
the runs independently is exact.) -/
def applyLines (f : String → String) (s : String) : String :=
  String.mk (applyLinesGo f [] s.toList)

/-- Does `s` start with `pre`? -/
def strStarts (s pre : String) : Bool :=
  pre.toList.isPrefixOf s.toList

/-- Does `s` end with `suf`? -/
def strEnds (s suf : String) : Bool :=
  suf.toList.reverse.isPrefixOf s.toList.reverse

/-- The character class `[ \t\r\n]` collapsed by `collapseWhitespace`. -/
def isCollapsible (c : Char) : Bool :=
  c == ' ' || c == '\t' || c == '\r' || c == '\n'

/-- Replace every maximal run of characters satisfying `isCollapsible` by a
single space; the boolean records whether the previous character was part
of such a run. -/
def collapseGo : List Char → Bool → List Char
  | [], _ => []
  | c :: cs, prevWs =>
    if isCollapsible c then
      if prevWs then collapseGo cs true else ' ' :: collapseGo cs true
    else c :: collapseGo cs false

/-- Source `collapseWhitespace(text)` in its default mode (the only mode the
node renderer uses): `text.replace(/[ \t\r\n]+/g, ' ')`. -/
def collapseWhitespace (s : String) : String :=
  String.mk (collapseGo s.toList false)

/-- Length of the leading run of characters satisfying `p`. -/
def countLeading (p : Char → Bool) (cs : List Char) : Nat :=
  (cs.takeWhile p).length

/-- Line rule `^-` to `\-`. -/
def escDashLine (line : String) : String :=
  if strStarts line "-" then "\\" ++ line else line

/-- Line rule `^\+ ` to `\+ `. -/
def escPlusLine (line : String) : String :=
  if strStarts line "+ " then "\\" ++ line else line

/-- Line rule `^(=+)` to `\$1`: a leading run of equals signs gets a
backslash in front (the run itself is kept by the capture). -/
def escEqLine (line : String) : String :=
  if strStarts line "=" then "\\" ++ line else line

/-- Line rule `^(#{1,6}) ` to `\$1 `: one to six leading hash marks
followed by a space get a backslash in front.  A run of seven or more
hashes never matches, because after backtracking the character following
the matched hashes is another hash, not a space. -/
def escHashLine (line : String) : String :=
  let cs := line.toList
  let k := countLeading (· == '#') cs
  if 1 ≤ k && k ≤ 6 && (cs.drop k).head? == some ' ' then "\\" ++ line else line

/-- Line rule `^>` to `\>`. -/
def escGtLine (line : String) : String :=
  if strStarts line ">" then "\\" ++ line else line

/-- Line rule `^(\d+)\. ` to `$1\. `: a leading digit run followed by a dot
and a space gets a backslash inserted before the dot. -/
def escOlLine (line : String) : String :=
  let cs := line.toList
  let k := countLeading Char.isDigit cs
  if 1 ≤ k && ['.', ' '].isPrefixOf (cs.drop k) then
    String.mk (cs.take k) ++ "\\" ++ String.mk (cs.drop k)
  else line

/-- Source `escapeMarkdown(text)`: the twelve replacement rules applied in
the source's fixed order (backslash doubling first, then `*`, the
line-leading `-`, `+ `, `=` runs and heading hashes, then backtick, `[`,
`]`, line-leading `>`, `_`, and the ordered-list dot last). -/
def escapeMarkdown (text : String) : String :=
  let s := replaceChar '\\' "\\\\" text
  let s := replaceChar '*' "\\*" s
  let s := applyLines escDashLine s
  let s := applyLines escPlusLine s
  let s := applyLines escEqLine s
  let s := applyLines escHashLine s
  let s := replaceChar '`' "\\`" s
  let s := replaceChar '[' "\\[" s
  let s := replaceChar ']' "\\]" s
  let s := applyLines escGtLine s
  let s := replaceChar '_' "\\_" s
  applyLines escOlLine s

/-- The DOM subtree handed to the converter: a text node with its literal
string, or an element with a tag, an attribute list and ordered
children. -/
inductive Node where
  | text (s : String)
  | elem (tag : String) (attrs : List (String × String)) (children : List Node)

/-- Is this an element node (`nodeType === Node.ELEMENT_NODE`)? -/
def Node.isElem : Node → Bool
  | .elem _ _ _ => true
  | .text _ => false

/-- The element's tag, lower-cased in the source via
`tagName.toLowerCase()`; the model stores tags lower-case. -/
def Node.tagName : Node → Option String
  | .elem t _ _ => some t
  | .text _ => none

/-- DOM `getAttribute`: the value of the first binding of `key`, or
`none` when the attribute is absent. -/
def Node.getAttribute : Node → String → Option String
  | .elem _ attrs _, key => (attrs.find? (fun p => p.1 == key)).map Prod.snd
  | .text _, _ => none

mutual

/-- DOM `textContent`: the concatenation of all descendant text. -/
def Node.textContent : Node → String
  | .text s => s
  | .elem _ _ cs => textContentList cs

/-- `textContent` of a forest, in order. -/
def textContentList : List Node → String
  | [] => ""
  | n :: ns => n.textContent ++ textContentList ns

end

mutual

/-- A node followed by its descendants in pre-order (document order). -/
def Node.selfAndDescendants : Node → List Node
  | .text s => [.text s]
  | .elem t a cs => .elem t a cs :: descendantsList cs

/-- Pre-order traversal of a forest. -/
def descendantsList : List Node → List Node
  | [] => []
  | n :: ns => n.selfAndDescendants ++ descendantsList ns

end

/-- The proper descendants of a node in document order; DOM
`querySelector`/`querySelectorAll` search exactly this list (an element
never matches itself). -/
def Node.descendants : Node → List Node
  | .text _ => []
  | .elem _ _ cs => descendantsList cs

/-- DOM `querySelectorAll` restricted to the simple selectors the source
uses: all descendants satisfying the predicate, in document order. -/
def querySelectorAll (p : Node → Bool) (n : Node) : List Node :=
  n.descendants.filter p

/-- DOM `querySelector`: the first descendant satisfying the predicate. -/
def querySelector (p : Node → Bool) (n : Node) : Option Node :=
  (querySelectorAll p n).head?

/-- Selector for a single tag name. -/
def tagSel (t : String) (n : Node) : Bool :=
  n.tagName == some t

/-- Selector `td, th` used on table rows. -/
def cellSel (n : Node) : Bool :=
  tagSel "td" n || tagSel "th" n

/-- Selector `img, hr, br, table` used by the blank-node guard. -/
def blankBlockerSel (n : Node) : Bool :=
  tagSel "img" n || tagSel "hr" n || tagSel "br" n || tagSel "table" n

/-- Selector `input[type="checkbox"]`. -/
def isCheckboxSel (n : Node) : Bool :=
  tagSel "input" n && n.getAttribute "type" == some "checkbox"

/-- The DOM `checked` property of a checkbox in a freshly parsed page,
modelled as presence of the `checked` attribute. -/
def Node.isChecked (n : Node) : Bool :=
  (n.getAttribute "checked").isSome

/-- Source `isBlank(node)`: an element node with no `img`, `hr`, `br` or
`table` descendant whose flattened text matches `^\s*$`. -/
def isBlank (n : Node) : Bool :=
  n.isElem && (querySelector blankBlockerSel n).isNone &&
    n.textContent.toList.all isJsWhitespace

/-- Numeric value of a digit run. -/
def digitsVal (ds : List Char) : Nat :=
  ds.foldl (fun acc c => acc * 10 + (c.toNat - 48)) 0

/-- Bit length of a natural number (0 has length 0); the first argument is
recursion fuel, and the wrapper passes the number itself, which always
suffices since the value halves at every step. -/
def bitlenGo : Nat → Nat → Nat
  | 0, _ => 0
  | fuel + 1, n => if n == 0 then 0 else bitlenGo fuel (n / 2) + 1

/-- Bit length: the unique b with 2 ^ (b - 1) ≤ n < 2 ^ b for n > 0. -/
def bitlen (n : Nat) : Nat :=
  bitlenGo n n

/-- Decimal digit count of a natural number (0 has count 0), fuelled like
`bitlen`. -/
def digits10Go : Nat → Nat → Nat
  | 0, _ => 0
  | fuel + 1, n => if n == 0 then 0 else digits10Go fuel (n / 10) + 1

/-- Decimal digit count: the unique g with 10 ^ (g-1) ≤ n < 10 ^ g for
n > 0. -/
def digits10 (n : Nat) : Nat :=
  digits10Go n n

/-- Is the positive rational num / den at least 2 ^ t (t an integer)? -/
def ratGePow2 (num den : Nat) (t : Int) : Bool :=
  if t ≥ 0 then num ≥ den * 2 ^ t.toNat
  else num * 2 ^ (-t).toNat ≥ den

/-- Floor of the base-2 logarithm of the positive rational num / den. -/
def ratFloorLog2 (num den : Nat) : Int :=
  let b : Int := (bitlen num : Int) - (bitlen den : Int)
  if ratGePow2 num den b then b else b - 1

/-- A JavaScript number (IEEE 754 binary64).  A finite non-zero value is
(-1)^neg * m * 2^e in the canonical form 2^52 ≤ m < 2^53 (normal) or
e = -1074 with 0 < m < 2^52 (subnormal), which makes representations
unique, so structural equality is value equality. -/
inductive JsDouble where
  | nan
  | inf (neg : Bool)
  | zero (neg : Bool)
  | finite (neg : Bool) (m : Nat) (e : Int)
deriving BEq, DecidableEq

/-- Round the positive rational num / den (both positive) to the nearest
binary64 value, ties to even: the rounding JavaScript applies to every
numeric literal and arithmetic result. -/
def roundPos (num den : Nat) : JsDouble :=
  let e2 := ratFloorLog2 num den
  if e2 > 1023 then .inf false
  else if e2 < -1022 then
    let a := num * 2 ^ 1074
    let q := a / den
    let r := a % den
    let m := q + (if 2 * r > den || (2 * r == den && q % 2 == 1) then 1 else 0)
    if m == 0 then .zero false
    else .finite false m (-1074)
  else
    let sh : Int := 52 - e2
    let (a, d) := if sh ≥ 0 then (num * 2 ^ sh.toNat, den) else (num, den * 2 ^ (-sh).toNat)
    let q := a / d
    let r := a % d
    let m := q + (if 2 * r > d || (2 * r == d && q % 2 == 1) then 1 else 0)
    if m == 2 ^ 53 then
      if e2 + 1 > 1023 then .inf false else .finite false (2 ^ 52) (e2 - 51)
    else .finite false m (e2 - 52)

/-- Round a signed exact rational to the nearest binary64, ties to even
(an exact zero gives +0, as IEEE round-to-nearest does for sums). -/
def roundRat (num : Int) (den : Nat) : JsDouble :=
  if num = 0 then .zero false
  else if num > 0 then roundPos num.toNat den
  else
    match roundPos (-num).toNat den with
    | .inf _ => .inf true
    | .zero _ => .zero true
    | .finite _ m e => .finite true m e
    | .nan => .nan

/-- The binary64 image of an exact integer (e.g. the `indexOf` result the
source adds to `Number(start)`). -/
def jsDoubleOfInt (n : Int) : JsDouble :=
  roundRat n 1

/-- The exact rational value of a finite double part, as a signed
numerator over a positive power-of-two denominator. -/
def finiteToRat (neg : Bool) (m : Nat) (e : Int) : Int × Nat :=
  let sgn : Int := if neg then -1 else 1
  if e ≥ 0 then (sgn * ((m * 2 ^ e.toNat : Nat) : Int), 1)
  else (sgn * (m : Int), 2 ^ (-e).toNat)

/-- IEEE binary64 addition, JavaScript `+` on numbers: the exact rational
sum of the operands, rounded. -/
def doubleAdd (x y : JsDouble) : JsDouble :=
  match x, y with
  | .nan, _ => .nan
  | _, .nan => .nan
  | .inf nx, .inf ny => if nx == ny then .inf nx else .nan
  | .inf nx, _ => .inf nx
  | _, .inf ny => .inf ny
  | .zero nx, .zero ny => .zero (nx && ny)
  | .zero _, v => v
  | v, .zero _ => v
  | .finite n1 m1 e1, .finite n2 m2 e2 =>
    let p1 := finiteToRat n1 m1 e1
    let p2 := finiteToRat n2 m2 e2
    roundRat (p1.1 * (p2.2 : Int) + p2.1 * (p1.2 : Int)) (p1.2 * p2.2)

/-- Is the positive rational num / den at least 10 ^ t (t an integer)? -/
def ratGePow10 (num den : Nat) (t : Int) : Bool :=
  if t ≥ 0 then num ≥ den * 10 ^ t.toNat
  else num * 10 ^ (-t).toNat ≥ den

/-- The unique n with 10 ^ (n-1) ≤ num / den < 10 ^ n for a positive
rational: the decimal exponent used by the number-to-string algorithm. -/
def ratDecExp (num den : Nat) : Int :=
  let g : Int := (digits10 num : Int) - (digits10 den : Int)
  if ratGePow10 num den g then g + 1 else g

/-- Floor of (num / den) * 10 ^ j for an integer j. -/
def ratScaledFloor (num den : Nat) (j : Int) : Nat :=
  if j ≥ 0 then num * 10 ^ j.toNat / den
  else num / (den * 10 ^ (-j).toNat)

/-- Does the decimal s * 10 ^ p parse back (round) to the target positive
finite double?  The round-trip test of the ECMAScript shortest-digits
search. -/
def candRoundtrips (s : Nat) (p : Int) (target : JsDouble) : Bool :=
  if s == 0 then false
  else if p ≥ 0 then roundPos (s * 10 ^ p.toNat) 1 == target
  else roundPos s (10 ^ (-p).toNat) == target

/-- The digit search of ECMAScript `Number::toString` for a positive value
num / den with decimal exponent n: find the smallest k ≥ 1 such that some
k-digit s has s * 10 ^ (n - k) rounding back to the value; between the
floor and ceiling candidates the closer one wins, ties to the even one; a
ceiling candidate of 10 ^ k renormalises to the single digit 1 at
exponent n + 1.  Returns (k, s, n).  The fuel (18 from the wrapper) is
never exhausted, since 17 significant digits always round-trip a
binary64. -/
def jsDigitsGo (num den : Nat) (target : JsDouble) (n : Int) : Nat → Nat → Nat × Nat × Int
  | 0, k => (k, ratScaledFloor num den ((k : Int) - n), n)
  | fuel + 1, k =>
    let p : Int := n - (k : Int)
    let sf := ratScaledFloor num den ((k : Int) - n)
    let sg := sf + 1
    let okLo := decide (10 ^ (k - 1) ≤ sf) && candRoundtrips sf p target
    let okHi := candRoundtrips sg p target
    if okLo && okHi then
      let lhs := if p ≥ 0 then 2 * num else 2 * num * 10 ^ (-p).toNat
      let rhs := if p ≥ 0 then den * ((2 * sf + 1) * 10 ^ p.toNat) else den * (2 * sf + 1)
      if lhs < rhs || (lhs == rhs && sf % 2 == 0) then (k, sf, n)
      else if sg == 10 ^ k then (1, 1, n + 1) else (k, sg, n)
    else if okLo then (k, sf, n)
    else if okHi then
      if sg == 10 ^ k then (1, 1, n + 1) else (k, sg, n)
    else jsDigitsGo num den target n fuel (k + 1)

/-- Shortest round-tripping digits of a positive finite double given as an
exact rational: digit count, digits and decimal exponent. -/
def jsShortestDigits (num den : Nat) (target : JsDouble) : Nat × Nat × Int :=
  jsDigitsGo num den target (ratDecExp num den) 18 1

/-- Lay out k digits s with decimal exponent n as ECMAScript
`Number::toString(10)` does: plain digits with trailing zeros for
k ≤ n ≤ 21, an embedded decimal point for 0 < n ≤ 21 < digits, a leading
`0.` with zeros for -6 < n ≤ 0, and exponential notation otherwise. -/
def jsFormatDigits (k s : Nat) (n : Int) : String :=
  let ds := Nat.repr s
  if (k : Int) ≤ n && n ≤ 21 then ds ++ String.mk (List.replicate (n - k).toNat '0')
  else if 0 < n && n ≤ 21 then
    String.mk (ds.toList.take n.toNat) ++ "." ++ String.mk (ds.toList.drop n.toNat)
  else if -5 ≤ n && n ≤ 0 then
    "0." ++ String.mk (List.replicate (-n).toNat '0') ++ ds
  else
    let expPart := (if n - 1 ≥ 0 then "e+" else "e-") ++ Nat.repr (n - 1).natAbs
    if k == 1 then ds ++ expPart
    else String.mk (ds.toList.take 1) ++ "." ++ String.mk (ds.toList.drop 1) ++ expPart

/-- ECMAScript `ToString` of a number, as used by the template literal
that builds the ordered-list marker. -/
def jsToString (d : JsDouble) : String :=
  match d with
  | .nan => "NaN"
  | .inf neg => if neg then "-Infinity" else "Infinity"
  | .zero _ => "0"
  | .finite neg m e =>
    let nd : Nat × Nat := if e ≥ 0 then (m * 2 ^ e.toNat, 1) else (m, 2 ^ (-e).toNat)
    let ksn := jsShortestDigits nd.1 nd.2 (.finite false m e)
    (if neg then "-" else "") ++ jsFormatDigits ksn.1 ksn.2.1 ksn.2.2

/-- Hexadecimal digit value. -/
def hexVal (c : Char) : Option Nat :=
  if '0' ≤ c && c ≤ '9' then some (c.toNat - 48)
  else if 'a' ≤ c && c ≤ 'f' then some (c.toNat - 87)
  else if 'A' ≤ c && c ≤ 'F' then some (c.toNat - 55)
  else none

/-- Octal digit value. -/
def octVal (c : Char) : Option Nat :=
  if '0' ≤ c && c ≤ '7' then some (c.toNat - 48) else none

/-- Binary digit value. -/
def binVal (c : Char) : Option Nat :=
  if c == '0' then some 0 else if c == '1' then some 1 else none

/-- Value of a digit run in a given base, or `none` on a bad digit. -/
def radixValGo (base : Nat) (dv : Char → Option Nat) : List Char → Nat → Option Nat
  | [], acc => some acc
  | c :: rest, acc =>
    match dv c with
    | some v => radixValGo base dv rest (acc * base + v)
    | none => none

/-- A `0x`/`0o`/`0b` literal body: NaN when empty or containing a bad
digit, else its exactly-parsed value rounded to a double. -/
def jsRadix (base : Nat) (dv : Char → Option Nat) (cs : List Char) : JsDouble :=
  if cs.isEmpty then .nan
  else
    match radixValGo base dv cs 0 with
    | some v => if v == 0 then .zero false else roundPos v 1
    | none => .nan

/-- The body of a decimal literal (sign already stripped): integer digits,
optional fraction, optional exponent, nothing left over; the exact value
is mantissa * 10 ^ exp10. -/
def parseDecBody (cs : List Char) : Option (Nat × Int) :=
  let intPart := cs.takeWhile Char.isDigit
  let rest1 := cs.dropWhile Char.isDigit
  let fracAndRest : List Char × List Char :=
    match rest1 with
    | '.' :: r => (r.takeWhile Char.isDigit, r.dropWhile Char.isDigit)
    | _ => ([], rest1)
  let fracPart := fracAndRest.1
  let rest2 := if rest1.head? == some '.' then fracAndRest.2 else rest1
  if intPart.isEmpty && fracPart.isEmpty then none
  else
    let mant := digitsVal (intPart ++ fracPart)
    let fexp : Int := -(fracPart.length : Int)
    match rest2 with
    | [] => some (mant, fexp)
    | e :: r =>
      if e == 'e' || e == 'E' then
        let signAndDigits : Int × List Char :=
          match r with
          | '+' :: rr => (1, rr)
          | '-' :: rr => (-1, rr)
          | _ => (1, r)
        if signAndDigits.2.isEmpty || !signAndDigits.2.all Char.isDigit then none
        else some (mant, fexp + signAndDigits.1 * (digitsVal signAndDigits.2 : Int))
      else none

/-- A signed decimal literal or `Infinity`: NaN when malformed, else the
exact decimal value rounded to a double (with sign, and with magnitude
guards that are exact: any value at least 10 ^ 309 overflows to infinity
and any positive value below 10 ^ -339 underflows to zero). -/
def jsDecOrInf (cs : List Char) (neg : Bool) : JsDouble :=
  if cs == "Infinity".toList then .inf neg
  else
    match parseDecBody cs with
    | none => .nan
    | some me =>
      let mant := me.1
      let e10 := me.2
      if mant == 0 then .zero neg
      else
        let mag : Int := (digits10 mant : Int) + e10
        if mag ≥ 310 then .inf neg
        else if mag ≤ -340 then .zero neg
        else
          let nd : Nat × Nat :=
            if e10 ≥ 0 then (mant * 10 ^ e10.toNat, 1) else (mant, 10 ^ (-e10).toNat)
          roundRat (if neg then -(nd.1 : Int) else (nd.1 : Int)) nd.2

/-- JavaScript `Number(string)`: trim whitespace, an empty remainder is 0,
a non-decimal radix literal (no sign allowed) parses in its base, and
otherwise the optionally signed decimal literal or `Infinity` applies;
anything else is NaN.  Every numeral is rounded to binary64 exactly as
JavaScript does. -/
def jsStringToNumber (s : String) : JsDouble :=
  let t := ((s.toList.dropWhile isJsWhitespace).reverse.dropWhile isJsWhitespace).reverse
  match t with
  | [] => .zero false
  | '+' :: rest => jsDecOrInf rest false
  | '-' :: rest => jsDecOrInf rest true
  | '0' :: x :: rest =>
    if x == 'x' || x == 'X' then jsRadix 16 hexVal rest
    else if x == 'o' || x == 'O' then jsRadix 8 octVal rest
    else if x == 'b' || x == 'B' then jsRadix 2 binVal rest
    else jsDecOrInf t false
  | _ => jsDecOrInf t false

/-- Try to match the regex `language-(\S+)` at the head of the character
list: the literal `language-` followed by at least one non-whitespace
character; the capture is the maximal non-whitespace run. -/
def languageTokenAt (cs : List Char) : Option String :=
  if "language-".toList.isPrefixOf cs then
    let tok := (cs.drop 9).takeWhile (fun c => !isJsWhitespace c)
    if tok.isEmpty then none else some (String.mk tok)
  else none

/-- Leftmost match of `className.match(/language-(\S+)/)`, returning the
first capture group. -/
def matchLanguage : List Char → Option String
  | [] => none
  | c :: cs =>
    match languageTokenAt (c :: cs) with
    | some tok => some tok
    | none => matchLanguage cs

/-- Source `replace(/\r?\n|\r/g, ' ')` on inline code: each CRLF pair, lone
LF or lone CR becomes one space. -/
def newlinesToSpaces : List Char → List Char
  | [] => []
  | '\r' :: '\n' :: rest => ' ' :: newlinesToSpaces rest
  | '\r' :: rest => ' ' :: newlinesToSpaces rest
  | '\n' :: rest => ' ' :: newlinesToSpaces rest
  | c :: rest => c :: newlinesToSpaces rest

/-- Source `replace(/^\n+/, '')` in the list-item handler: remove leading
newlines. -/
def dropLeadingNewlines (s : String) : String :=
  String.mk (s.toList.dropWhile (· == '\n'))

/-- Source `replace(/\n+$/, '\n')` in the list-item handler: collapse a
trailing newline run to exactly one newline. -/
def collapseTrailingNewlines (s : String) : String :=
  let r := s.toList.reverse
  if r.head? == some '\n' then String.mk ((r.dropWhile (· == '\n')).reverse) ++ "\n"
  else s

/-- List-item continuation indentation: when the body spans several lines,
every line after the first is indented by two spaces. -/
def indentContinuation (content : String) : String :=
  match splitLines content with
  | [] => content
  | [_] => content
  | first :: rest => first ++ "\n" ++ joinSep "\n" (rest.map (fun line => "  " ++ line))

/-- Heading level of `h1` to `h6` tags, the source's `parseInt(tag[1])`. -/
def headingLevel : String → Option Nat
  | "h1" => some 1
  | "h2" => some 2
  | "h3" => some 3
  | "h4" => some 4
  | "h5" => some 5
  | "h6" => some 6
  | _ => none

/-- Source lines 24 to 26, `getCellText(cell)`:
`cell.textContent?.trim().replaceAll('|', '\\|') ?? ''` (the text content
of an existing element is never nullish). -/
def getCellText (cell : Node) : String :=
  replaceChar '|' "\\|" (jsTrim cell.textContent)

/-- Source `getCellsFromRow(row)`: the texts of all `td, th` descendants of
the row, in document order. -/
def getCellsFromRow (row : Node) : List String :=
  (querySelectorAll cellSel row).map getCellText

/-- Source `formatTableRow(cells)`. -/
def formatTableRow (cells : List String) : String :=
  "| " ++ joinSep " | " cells ++ " |"

/-- Source `addHeaderRow(cells)`: the formatted header row followed by a
separator row of one `---` placeholder per header cell. -/
def headerRowPair (cells : List String) : List String :=
  [formatTableRow cells, formatTableRow (cells.map (fun _ => "---"))]

/-- The fallback loop of `convertTableToMarkdown` when the table has no
`tbody`: walk the cell lists of all `tr` descendants, skip rows with zero
cells, turn the first non-skipped row into a header-plus-separator pair if
the boolean (`isFirstRow`, initially `!thead`) is still set, and emit every
later row as a plain data row. -/
def directRows : List (List String) → Bool → List String
  | [], _ => []
  | cells :: rest, isFirstRow =>
    if cells.length > 0 then
      if isFirstRow then headerRowPair cells ++ directRows rest false
      else formatTableRow cells :: directRows rest false
    else directRows rest isFirstRow

/-- The `rows` array built by `convertTableToMarkdown` before the final
join: header rows from the first `tr` of a `thead` if present, then either
the rows of the `tbody` (zero-cell rows skipped), or, with no `tbody`, all
`tr` descendants processed by the `isFirstRow` loop. -/
def tableRows (tableNode : Node) : List String :=
  let thead := querySelector (tagSel "thead") tableNode
  let tbody := querySelector (tagSel "tbody") tableNode
  let headRows : List String :=
    match thead with
    | some th =>
      match querySelector (tagSel "tr") th with
      | some headerRow => headerRowPair (getCellsFromRow headerRow)
      | none => []
    | none => []
  let bodyRows : List String :=
    match tbody with
    | some tb =>
      ((querySelectorAll (tagSel "tr") tb).map getCellsFromRow).filterMap
        (fun cells => if cells.length > 0 then some (formatTableRow cells) else none)
    | none =>
      directRows ((querySelectorAll (tagSel "tr") tableNode).map getCellsFromRow) thead.isNone
  headRows ++ bodyRows

/-- Source lines 18 to 75, `convertTableToMarkdown(tableNode)`:
`rows.join('\n') + '\n\n'`. -/
def convertTableToMarkdown (tableNode : Node) : String :=
  joinSep "\n" (tableRows tableNode) ++ "\n\n"

mutual

/-- Remove from a forest the first node, in pre-order, satisfying `p`;
the boolean reports whether a node was removed.  This models
`clone.querySelector(sel)?.remove()` on the children of a cloned node. -/
def removeFirst (p : Node → Bool) : List Node → Bool × List Node
  | [] => (false, [])
  | n :: ns =>
    if p n then (true, ns)
    else
      let r := removeFirstInNode p n
      if r.1 then (true, r.2 :: ns)
      else
        let r2 := removeFirst p ns
        (r2.1, n :: r2.2)

/-- Remove from inside a node the first descendant, in pre-order,
satisfying `p`. -/
def removeFirstInNode (p : Node → Bool) : Node → Bool × Node
  | .text s => (false, .text s)
  | .elem t a cs =>
    let r := removeFirst p cs
    (r.1, .elem t a r.2)

end

mutual

theorem removeFirst_sizeOf_le (p : Node → Bool) :
    (cs : List Node) → sizeOf (removeFirst p cs).2 ≤ sizeOf cs
  | [] => by simp [removeFirst]
  | n :: ns => by
    simp only [removeFirst]
    split
    · simp
      try omega
    · have h1 := removeFirstInNode_sizeOf_le p n
      have h2 := removeFirst_sizeOf_le p ns
      split <;> simp <;> omega

theorem removeFirstInNode_sizeOf_le (p : Node → Bool) :
    (n : Node) → sizeOf (removeFirstInNode p n).2 ≤ sizeOf n
  | .text s => by simp [removeFirstInNode]
  | .elem t a cs => by
    have h := removeFirst_sizeOf_le p cs
    simp only [removeFirstInNode]
    simp
    omega

end

/-- The traversal context of a `processNode` call.  `isCode` and
`noEscape` are the option flags the source threads explicitly; the other
fields package the dynamic DOM lookups the source performs on the node:
`insideLi` is `isInsideListItem(node)`, `parentTag` and `parentStart` are
`node.parentElement?.tagName` and `parentElement.getAttribute('start')`,
`elemIdx` is `[...parent.children].indexOf(node)` (the position among the
parent's element children), and `hasNext` is the truthiness of
`node.nextSibling`. -/
structure Ctx where
  isCode : Bool
  noEscape : Bool
  insideLi : Bool
  parentTag : Option String
  parentStart : Option String
  elemIdx : Nat
  hasNext : Bool

/-- The context of the root call `processNode(clone, options)` with default
options: the clone is detached, so it has no parent, no siblings and no
ancestors. -/
def rootCtx : Ctx :=
  ⟨false, false, false, none, none, 0, false⟩

/-- The root context with `noEscape = true`, used for assistant-message
subtrees. -/
def noEscapeRootCtx : Ctx :=
  ⟨false, true, false, none, none, 0, false⟩

/-- Source lines 226 to 231, the inline-code branch on non-empty child
content: collapse newlines to spaces, use a double-backtick delimiter when
the content contains a backtick, and pad with one space on each side when
the content starts or ends with a backtick or a space. -/
def renderInlineCode (childContent : String) : String :=
  let inlineCode := String.mk (newlinesToSpaces childContent.toList)
  let hasBacktick := inlineCode.toList.contains '`'
  let delimiter := if hasBacktick then "``" else "`"
  let extraSpace :=
    if strStarts inlineCode "`" || strStarts inlineCode " " ||
       strEnds inlineCode "`" || strEnds inlineCode " " then " " else ""
  delimiter ++ extraSpace ++ inlineCode ++ extraSpace ++ delimiter

/-- The ordered-list marker computation of the `li` branch, the template
`${start ? Number(start) + index : index + 1}. ` against `"- "` for any
other parent: the numeric work is IEEE binary64 arithmetic, modelled by
`jsStringToNumber`, `doubleAdd` and `jsToString` (the `indexOf` result is
an exact integer, whose double image is `jsDoubleOfInt`). -/
def liMarker (ctx : Ctx) : String :=
  if ctx.parentTag == some "ol" then
    (match ctx.parentStart with
     | some startAttr =>
       if startAttr != "" then
         jsToString (doubleAdd (jsStringToNumber startAttr) (jsDoubleOfInt ctx.elemIdx))
       else jsToString (doubleAdd (jsDoubleOfInt ctx.elemIdx) (jsDoubleOfInt 1))
     | none => jsToString (doubleAdd (jsDoubleOfInt ctx.elemIdx) (jsDoubleOfInt 1))) ++ ". "
  else "- "

/-- The `switch (tag)` of `processNode` (source lines 183 to 324).  All
recursion is delegated to the caller: `childContent` is the concatenated
rendering of the children, and `liContent` the concatenated rendering of
the children of the clone with the first checkbox descendant removed
(used only by the `li` branch). -/
def renderTag (tag : String) (n : Node) (ctx : Ctx) (childContent liContent : String) :
    String :=
  match headingLevel tag with
  | some level => String.mk (List.replicate level '#') ++ " " ++ jsTrim childContent ++ "\n\n"
  | none =>
  match tag with
  | "p" =>
    if ctx.insideLi then jsTrim childContent
    else jsTrim childContent ++ "\n\n"
  | "strong" | "b" =>
    if jsTrim childContent != "" then "**" ++ childContent ++ "**" else ""
  | "em" | "i" =>
    if jsTrim childContent != "" then "*" ++ childContent ++ "*" else ""
  | "s" | "del" | "strike" =>
    if jsTrim childContent != "" then "~~" ++ childContent ++ "~~" else ""
  | "sup" =>
    if jsTrim childContent != "" then "<sup>" ++ childContent ++ "</sup>" else ""
  | "sub" =>
    if jsTrim childContent != "" then "<sub>" ++ childContent ++ "</sub>" else ""
  | "code" =>
    if ctx.parentTag == some "pre" then childContent
    else if childContent == "" then ""
    else renderInlineCode childContent
  | "pre" =>
    let codeElement := querySelector (tagSel "code") n
    let className := (codeElement.bind (fun ce => ce.getAttribute "class")).getD ""
    let language := (matchLanguage className.toList).getD ""
    let code :=
      match codeElement with
      | some ce => ce.textContent
      | none => childContent
    "```" ++ language ++ "\n" ++ jsTrim code ++ "\n```\n\n"
  | "ul" | "ol" =>
    if jsTrim childContent == "" then ""
    else if ctx.insideLi then
      "\n" ++ joinSep "\n" ((splitLines (jsTrim childContent)).map (fun line => "  " ++ line)) ++ "\n"
    else "\n" ++ childContent ++ "\n"
  | "li" =>
    let checkbox := querySelector isCheckboxSel n
    let taskListMark :=
      match checkbox with
      | some cb => if cb.isChecked then "[x] " else "[ ] "
      | none => ""
    let content := indentContinuation (collapseTrailingNewlines (dropLeadingNewlines liContent))
    liMarker ctx ++ taskListMark ++ content ++
      (if ctx.hasNext && !(strEnds content "\n") then "\n" else "")
  | "blockquote" =>
    joinSep "\n" ((splitLines (jsTrim childContent)).map (fun line => "> " ++ line)) ++ "\n\n"
  | "hr" => "---\n\n"
  | "a" =>
    match n.getAttribute "href" with
    | none => childContent
    | some href =>
      if href == "" then childContent
      else
        let titlePart :=
          match n.getAttribute "title" with
          | some title =>
            if title != "" then " \"" ++ replaceChar '"' "\\\"" title ++ "\"" else ""
          | none => ""
        "[" ++ childContent ++ "](" ++ href ++ titlePart ++ ")"
  | "img" =>
    match n.getAttribute "src" with
    | none => ""
    | some src =>
      if src == "" then ""
      else
        let alt := (n.getAttribute "alt").getD ""
        let titlePart :=
          match n.getAttribute "title" with
          | some title =>
            if title != "" then " \"" ++ replaceChar '"' "\\\"" title ++ "\"" else ""
          | none => ""
        "![" ++ alt ++ "](" ++ src ++ titlePart ++ ")"
  | "br" => "\n"
  | "table" => convertTableToMarkdown n
  | _ => childContent

mutual

/-- Source lines 155 to 328, `processNode(node, { isCode, noEscape })`:
return empty for a blank node; for a text node collapse whitespace (kept
raw in code context) and escape unless in code context or escaping is
suppressed; for an element render all children in the child context and
dispatch on the tag.  The child context records the per-child DOM facts:
the child enters code context when the element is `code` or `pre` but the
`pre` tag keeps its own children raw, the child is inside a list item when
this element is an `li` or already inside one, the parent tag, `start`
attribute, element-children index and next-sibling flag come from this
element.  `liContent` renders the children of the clone with the first
checkbox descendant removed, as in the `li` branch of the source. -/
def processNode (n : Node) (ctx : Ctx) : String :=
  if isBlank n then ""
  else
    match n with
    | .text s =>
      let text := if ctx.isCode then s else collapseWhitespace s
      if ctx.isCode || ctx.noEscape then text else escapeMarkdown text
    | .elem tag attrs cs =>
      let isCodeContext := ctx.isCode || tag == "code" || tag == "pre"
      let childCtx : Ctx :=
        { isCode := isCodeContext && tag != "pre"
          noEscape := ctx.noEscape
          insideLi := ctx.insideLi || tag == "li"
          parentTag := some tag
          parentStart := (attrs.find? (fun p => p.1 == "start")).map Prod.snd
          elemIdx := 0
          hasNext := false }
      renderTag tag (.elem tag attrs cs) ctx
        (processChildren cs childCtx 0)
        (processChildren (removeFirst isCheckboxSel cs).2 childCtx 0)
termination_by sizeOf n
decreasing_by
  all_goals simp_wf
  all_goals have h := removeFirst_sizeOf_le isCheckboxSel cs
  all_goals omega

/-- Render a list of sibling nodes in order and concatenate, giving each
child its index among the element children seen so far and its
next-sibling flag. -/
def processChildren (cs : List Node) (base : Ctx) (elemsBefore : Nat) : String :=
  match cs with
  | [] => ""
  | c :: rest =>
    processNode c { base with elemIdx := elemsBefore, hasNext := !rest.isEmpty } ++
    processChildren rest base (elemsBefore + (if c.isElem then 1 else 0))
termination_by sizeOf cs
decreasing_by
  all_goals simp_wf
  all_goals omega

end

mutual

/-- Fuel-indexed twin of `processNode`, identical except that recursion is
structural on the fuel argument so that concrete runs reduce inside the
kernel; `processGo_agree` shows it computes `processNode` whenever the fuel
is at least the size of the node, so the fuel-exhausted branch is never
reached from `processNode_eval`. -/
def processNodeGo : Nat → Node → Ctx → String
  | 0, _, _ => ""
  | fuel + 1, n, ctx =>
    if isBlank n then ""
    else
      match n with
      | .text s =>
        let text := if ctx.isCode then s else collapseWhitespace s
        if ctx.isCode || ctx.noEscape then text else escapeMarkdown text
      | .elem tag attrs cs =>
        let isCodeContext := ctx.isCode || tag == "code" || tag == "pre"
        let childCtx : Ctx :=
          { isCode := isCodeContext && tag != "pre"
            noEscape := ctx.noEscape
            insideLi := ctx.insideLi || tag == "li"
            parentTag := some tag
            parentStart := (attrs.find? (fun p => p.1 == "start")).map Prod.snd
            elemIdx := 0
            hasNext := false }
        renderTag tag (.elem tag attrs cs) ctx
          (processChildrenGo fuel cs childCtx 0)
          (processChildrenGo fuel (removeFirst isCheckboxSel cs).2 childCtx 0)

/-- Fuel-indexed twin of `processChildren`. -/
def processChildrenGo : Nat → List Node → Ctx → Nat → String
  | 0, _, _, _ => ""
  | fuel + 1, cs, base, elemsBefore =>
    match cs with
    | [] => ""
    | c :: rest =>
      processNodeGo fuel c { base with elemIdx := elemsBefore, hasNext := !rest.isEmpty } ++
      processChildrenGo fuel rest base (elemsBefore + (if c.isElem then 1 else 0))

end

theorem processGo_agree :
    ∀ fuel : Nat,
      (∀ (n : Node) (ctx : Ctx), sizeOf n ≤ fuel → processNodeGo fuel n ctx = processNode n ctx) ∧
      (∀ (cs : List Node) (base : Ctx) (e : Nat), sizeOf cs ≤ fuel →
        processChildrenGo fuel cs base e = processChildren cs base e) := by
  intro fuel
  induction fuel with
  | zero =>
    constructor
    · intro n ctx h
      exfalso
      cases n <;> simp at h
    · intro cs base e h
      exfalso
      cases cs <;> simp at h
  | succ f ih =>
    obtain ⟨ihN, ihC⟩ := ih
    constructor
    · intro n ctx h
      match n with
      | .text s => simp [processNodeGo, processNode]
      | .elem tag attrs cs =>
        have hcs : sizeOf cs ≤ f := by
          simp at h
          omega
        have hclone : sizeOf (removeFirst isCheckboxSel cs).2 ≤ f :=
          le_trans (removeFirst_sizeOf_le isCheckboxSel cs) hcs
        simp only [processNodeGo, processNode]
        rw [ihC cs _ 0 hcs, ihC _ _ 0 hclone]
    · intro cs base e h
      match cs with
      | [] => simp [processChildrenGo, processChildren]
      | c :: rest =>
        have hc : sizeOf c ≤ f := by
          simp at h
          omega
        have hrest : sizeOf rest ≤ f := by
          simp at h
          omega
        simp only [processChildrenGo, processChildren]
        rw [ihN c _ hc, ihC rest _ _ hrest]

/-- Evaluation lemma: a `processNode` run equals the fuel-indexed run with
fuel the size of the node, which the kernel can reduce on concrete
inputs. -/
theorem processNode_eval (n : Node) (ctx : Ctx) :
    processNode n ctx = processNodeGo (sizeOf n) n ctx :=
  ((processGo_agree (sizeOf n)).1 n ctx le_rfl).symm

/-- Evaluation lemma for child lists: the fuel-indexed twin agrees at fuel
equal to the size of the list. -/
theorem processChildren_eval (cs : List Node) (base : Ctx) (e : Nat) :
    processChildren cs base e = processChildrenGo (sizeOf cs) cs base e :=
  ((processGo_agree (sizeOf cs)).2 cs base e le_rfl).symm

/-- The two-column, two-row table of the table round-trip property: a
`thead` whose row holds header cells `A`, `B` and a `tbody` with data rows
`1`,`2` and `3`,`4`. -/
def c1Table : Node :=
  .elem "table" []
    [.elem "thead" [] [.elem "tr" [] [.elem "th" [] [.text "A"], .elem "th" [] [.text "B"]]],
     .elem "tbody" []
       [.elem "tr" [] [.elem "td" [] [.text "1"], .elem "td" [] [.text "2"]],
        .elem "tr" [] [.elem "td" [] [.text "3"], .elem "td" [] [.text "4"]]]]

/-- A list item holding a checked checkbox (with its own label text, which
must not leak into the rendering) followed by the text `done`. -/
def checkedLi : Node :=
  .elem "li" []
    [.elem "input" [("type", "checkbox"), ("checked", "")] [.text "CHECKBOX LABEL"],
     .text "done"]

/-- The unchecked variant of `checkedLi`. -/
def uncheckedLi : Node :=
  .elem "li" []
    [.elem "input" [("type", "checkbox")] [.text "CHECKBOX LABEL"],
     .text "done"]

/-- An ordered list with two plain items and no `start` attribute. -/
def olTwoItems : Node :=
  .elem "ol" [] [.elem "li" [] [.text "a"], .elem "li" [] [.text "b"]]

/-- A preformatted block whose code element carries no class attribute. -/
def preNoFence : Node :=
  .elem "pre" [] [.elem "code" [] [.text "hello"]]

/-- A preformatted block with no inline-code descendant at all. -/
def prePlainText : Node :=
  .elem "pre" [] [.text "x"]

/-- An inline-code element whose only content is a single space. -/
def codeWsOnly : Node :=
  .elem "code" [] [.text " "]

/-- A table with no rows, no head and no body. -/
def emptyTable : Node :=
  .elem "table" [] []

/-- A table with no head/body split: a first row with zero cells, then a
row of two header-candidate cells, then a data row. -/
def c8Table : Node :=
  .elem "table" []
    [.elem "tr" [] [],
     .elem "tr" [] [.elem "th" [] [.text "A"], .elem "th" [] [.text "B"]],
     .elem "tr" [] [.elem "td" [] [.text "1"], .elem "td" [] [.text "2"]]]

/-- A table whose single cell contains inline markup (an emphasis around
text with a pipe, and an inline-code element): cell rendering flattens it
to plain text. -/
def markupCellTable : Node :=
  .elem "table" []
    [.elem "tr" []
      [.elem "th" [] [.elem "em" [] [.text " a|b "], .elem "code" [] [.text "z"]]]]

/-- C1: a table with head cells `A`,`B` and body rows `1`,`2` and `3`,`4`
renders exactly as the four pipe rows (header, `---` separator, two data
rows) joined by newlines and followed by a single blank line. -/
theorem C1_table_roundtrip :
    convertTableToMarkdown c1Table = "| A | B |\n| --- | --- |\n| 1 | 2 |\n| 3 | 4 |\n\n" := by
  decide

/-- C2: a text node rendered outside a code context with escaping enabled
yields exactly `escapeMarkdown` of its whitespace-collapsed text, where
`escapeMarkdown` applies the source's replacement rules in their fixed
order and its line-anchored rules fire after every JavaScript line
terminator (LF, CR, U+2028, U+2029 — the last two survive whitespace
collapsing, as the U+2028 example shows); in particular `- not a list`
renders as `\- not a list`, and with `noEscape` set the text is only
whitespace-collapsed, so the same input is returned unchanged. -/
theorem C2_text_node_escaping :
    (∀ (s : String) (li : Bool) (pt ps : Option String) (i : Nat) (hn : Bool),
      processNode (.text s) ⟨false, false, li, pt, ps, i, hn⟩ = escapeMarkdown (collapseWhitespace s)) ∧
    processNode (.text "- not a list") rootCtx = "\\- not a list" ∧
    processNode (.text "a\u2028- b") rootCtx = "a\u2028\\- b" ∧
    (∀ (s : String) (li : Bool) (pt ps : Option String) (i : Nat) (hn : Bool),
      processNode (.text s) ⟨false, true, li, pt, ps, i, hn⟩ = collapseWhitespace s) ∧
    processNode (.text "- not a list") noEscapeRootCtx = "- not a list" := by
  refine ⟨?_, ?_, ?_, ?_, ?_⟩
  · intro s li pt ps i hn
    simp [processNode, isBlank, Node.isElem]
  · rw [processNode_eval]
    decide
  · rw [processNode_eval]
    decide
  · intro s li pt ps i hn
    simp [processNode, isBlank, Node.isElem]
  · rw [processNode_eval]
    decide

/-- C3: a list item with a checked checkbox and text `done` under an
unordered parent renders as `- [x] done` plus a newline when a following
sibling exists; unchecked gives `- [ ] done`; the checkbox's own label
text never appears in the body (it is removed on a structural copy before
rendering), and the trailing newline is omitted when no sibling
follows. -/
theorem C3_task_list_item :
    processNode checkedLi ⟨false, false, false, some "ul", none, 0, true⟩ = "- [x] done\n" ∧
    processNode uncheckedLi ⟨false, false, false, some "ul", none, 0, true⟩ = "- [ ] done\n" ∧
    processNode checkedLi ⟨false, false, false, some "ul", none, 0, false⟩ = "- [x] done" := by
  refine ⟨?_, ?_, ?_⟩ <;> rw [processNode_eval] <;> decide

set_option maxRecDepth 100000 in
/-- C4 counterexample: in an ordered list with no `start` attribute the two
items render `1. a` and `2. b`, not the `2. a` and `3. b` that the claim's
formula (default start 1 plus the one-based position) would give. -/
theorem C4_counterexample :
    processNode olTwoItems rootCtx = "\n1. a\n2. b\n" ∧
    processNode olTwoItems rootCtx ≠ "\n2. a\n3. b\n" := by
  have h : processNode olTwoItems rootCtx = "\n1. a\n2. b\n" := by
    rw [processNode_eval]
    decide
  exact ⟨h, by rw [h]; decide⟩

set_option maxRecDepth 100000 in
/-- C4 (amended): the marker of a list item is `- ` for any non-ordered
parent; under an ordered parent the marker number is the JavaScript
number `Number(start) + index` (with a non-empty `start` attribute),
where `index` is the item's zero-based position among the parent's
element children, and `index + 1` otherwise — so the first item of a
default list is numbered 1 and the second 2, an explicit `start="5"`
numbers the second item 6, and the arithmetic is IEEE binary64: a `start`
beyond the exact-integer range rounds (9007199254740993 renders as
9007199254740992) and a fractional `start` is used as such (`start="2.5"`
numbers the second item 3.5). -/
theorem C4_list_marker (startAttr : String) (i : Nat) (hne : startAttr ≠ "") :
    processNode (.elem "li" [] [.text "x"]) ⟨false, false, false, some "ol", some startAttr, i, false⟩
      = jsToString (doubleAdd (jsStringToNumber startAttr) (jsDoubleOfInt i)) ++ ". x" ∧
    processNode (.elem "li" [] [.text "x"]) ⟨false, false, false, some "ol", none, i, false⟩
      = jsToString (doubleAdd (jsDoubleOfInt i) (jsDoubleOfInt 1)) ++ ". x" ∧
    processNode (.elem "li" [] [.text "x"]) ⟨false, false, false, some "ul", none, i, false⟩
      = "- x" ∧
    processNode (.elem "li" [] [.text "x"]) ⟨false, false, false, none, none, i, false⟩
      = "- x" ∧
    processNode (.elem "li" [] [.text "x"]) ⟨false, false, false, some "ol", none, 0, false⟩
      = "1. x" ∧
    processNode (.elem "li" [] [.text "x"]) ⟨false, false, false, some "ol", some "5", 1, false⟩
      = "6. x" ∧
    processNode (.elem "li" [] [.text "x"])
        ⟨false, false, false, some "ol", some "9007199254740993", 0, false⟩
      = "9007199254740992. x" ∧
    processNode (.elem "li" [] [.text "x"]) ⟨false, false, false, some "ol", some "2.5", 1, false⟩
      = "3.5. x" := by
  have hB : isBlank (.elem "li" [] [.text "x"]) = false := by decide
  have hc : processChildren [Node.text "x"] ⟨false, false, true, some "li", none, 0, false⟩ 0 = "x" := by
    rw [processChildren_eval]
    decide
  refine ⟨?_, ?_, ?_, ?_, ?_, ?_, ?_, ?_⟩
  all_goals first
    | (rw [processNode_eval]; decide)
    | (rw [processNode.eq_def]
       simp only [hB]
       simp [renderTag, liMarker, hne, hc, removeFirst, removeFirstInNode, isCheckboxSel,
         tagSel, Node.tagName, headingLevel, querySelector, querySelectorAll, Node.descendants,
         descendantsList, Node.selfAndDescendants, indentContinuation, collapseTrailingNewlines,
         dropLeadingNewlines, splitLines, splitLinesGo, strEnds, String.append_assoc])

set_option maxRecDepth 100000 in
/-- Witness for C4: with `start="5"` the second item (zero-based index 1)
gets the marker number Number("5") + 1, which evaluates to 6. -/
theorem C4_list_marker_witness :
    processNode (.elem "li" [] [.text "x"]) ⟨false, false, false, some "ol", some "5", 1, false⟩
      = jsToString (doubleAdd (jsStringToNumber "5") (jsDoubleOfInt 1)) ++ ". x" ∧
    jsToString (doubleAdd (jsStringToNumber "5") (jsDoubleOfInt 1)) = "6" := by
  constructor
  · exact (C4_list_marker "5" 1 (by decide)).1
  · decide

/-- C5: a preformatted block with an inline-code descendant emits a fence
tagged with the token matched by `language-(\S+)` against the descendant's
class attribute (empty when undetectable) around the descendant's trimmed
literal text; without a code descendant the block's rendered children are
fenced instead. -/
theorem C5_pre_code_fence :
    (∀ (cls t : String) (ctx : Ctx), ¬ (t.toList.all isJsWhitespace = true) →
      processNode (.elem "pre" [] [.elem "code" [("class", cls)] [.text t]]) ctx
        = "```" ++ (matchLanguage cls.toList).getD "" ++ "\n" ++ jsTrim t ++ "\n```\n\n") ∧
    processNode preNoFence rootCtx = "```\nhello\n```\n\n" ∧
    processNode prePlainText rootCtx = "```\nx\n```\n\n" := by
  refine ⟨?_, ?_, ?_⟩
  · intro cls t ctx ht
    rw [processNode.eq_def]
    have hB : isBlank (.elem "pre" [] [.elem "code" [("class", cls)] [.text t]])
        = t.toList.all isJsWhitespace := by
      simp [isBlank, Node.isElem, querySelector, querySelectorAll, Node.descendants,
        descendantsList, Node.selfAndDescendants, blankBlockerSel, tagSel, Node.tagName,
        Node.textContent, textContentList, String.append_empty]
    rw [hB]
    simp only [Bool.not_eq_true] at ht
    simp only [ht, Bool.false_eq_true, if_false]
    simp [renderTag, headingLevel, querySelector, querySelectorAll, Node.descendants,
      descendantsList, Node.selfAndDescendants, tagSel, Node.tagName, Node.getAttribute,
      Node.textContent, textContentList, String.append_empty, String.append_assoc]
  · rw [processNode_eval]
    decide
  · rw [processNode_eval]
    decide

/-- Witness for C5: class `language-python` with text `print(1)` renders
the python-tagged fence of the specification. -/
theorem C5_pre_code_fence_witness :
    processNode (.elem "pre" [] [.elem "code" [("class", "language-python")] [.text "print(1)"]])
      rootCtx = "```python\nprint(1)\n```\n\n" := by
  rw [C5_pre_code_fence.1 "language-python" "print(1)" rootCtx (by decide)]
  decide

/-- C6 counterexample: an inline-code element whose content is a single
space has non-empty content, so the claim's rules demand a padded
single-backtick rendering, but the blank-element guard fires first and the
element renders to the empty string. -/
theorem C6_counterexample :
    processNode codeWsOnly rootCtx = "" ∧
    processNode codeWsOnly rootCtx ≠ "`   `" := by
  have h : processNode codeWsOnly rootCtx = "" := by
    rw [processNode_eval]
    decide
  exact ⟨h, by rw [h]; decide⟩

/-- C6 (amended): an inline-code element not directly inside a
preformatted block and whose flattened text is not pure whitespace renders
by `renderInlineCode`: newlines collapse to spaces, the delimiter is two
backticks when the content contains a backtick and one otherwise, and one
space of padding is added on each side exactly when the content starts or
ends with a backtick or a space; whitespace-only content (the empty string
included) instead renders to the empty string through the blank-element
guard. -/
theorem C6_inline_code (s : String) (ctx : Ctx)
    (hpre : ctx.parentTag ≠ some "pre")
    (hs : ¬ (s.toList.all isJsWhitespace = true)) :
    processNode (.elem "code" [] [.text s]) ctx = renderInlineCode s := by
  have hsne : s ≠ "" := by
    intro h
    subst h
    simp at hs
  have hB : isBlank (.elem "code" [] [.text s]) = s.toList.all isJsWhitespace := by
    simp [isBlank, Node.isElem, querySelector, querySelectorAll, Node.descendants,
      descendantsList, Node.selfAndDescendants, blankBlockerSel, tagSel, Node.tagName,
      Node.textContent, textContentList, String.append_empty]
  rw [processNode.eq_def, hB]
  simp only [Bool.not_eq_true] at hs
  simp only [hs, Bool.false_eq_true, if_false]
  simp [renderTag, headingLevel, hpre, hsne, processChildren, processNode, isBlank,
    Node.isElem, String.append_empty]

/-- Witness for C6: content with a backtick and a newline gets the
double-backtick delimiter, no padding, and the newline becomes a space. -/
theorem C6_inline_code_witness :
    processNode (.elem "code" [] [.text "a`b\nc"]) rootCtx = renderInlineCode "a`b\nc" ∧
    renderInlineCode "a`b\nc" = "``a`b c``" := by
  constructor
  · exact C6_inline_code "a`b\nc" rootCtx (by decide) (by decide)
  · decide

/-- C7: every node the blank guard accepts (an element whose flattened
text is pure whitespace with no image, horizontal-rule, line-break or
table descendant) renders to the empty string under any context. -/
theorem C7_blank_guard (n : Node) (ctx : Ctx) (h : isBlank n = true) :
    processNode n ctx = "" := by
  rw [processNode.eq_def, h]
  simp

/-- Witness for C7: a strong element whose only child is whitespace
renders to the empty string, not `****`. -/
theorem C7_blank_guard_witness :
    processNode (.elem "strong" [] [.text " "]) rootCtx = "" :=
  C7_blank_guard (.elem "strong" [] [.text " "]) rootCtx (by decide)

/-- C8: a table with neither head nor body section processes its rows
directly: the row list is the `isFirstRow` loop over all `tr` descendants
with the flag initially set (no head was found), zero-cell rows are
skipped without consuming the flag, the first row with cells becomes the
header-plus-separator pair, and every later row with cells is a plain
data row. -/
theorem C8_direct_rows (t : Node)
    (hthead : querySelector (tagSel "thead") t = none)
    (htbody : querySelector (tagSel "tbody") t = none) :
    tableRows t = directRows ((querySelectorAll (tagSel "tr") t).map getCellsFromRow) true ∧
    convertTableToMarkdown t
      = joinSep "\n" (directRows ((querySelectorAll (tagSel "tr") t).map getCellsFromRow) true)
        ++ "\n\n" ∧
    (∀ (rest : List (List String)) (b : Bool), directRows ([] :: rest) b = directRows rest b) ∧
    (∀ (c : String) (cs : List String) (rest : List (List String)),
      directRows ((c :: cs) :: rest) true = headerRowPair (c :: cs) ++ directRows rest false) ∧
    (∀ (c : String) (cs : List String) (rest : List (List String)),
      directRows ((c :: cs) :: rest) false = formatTableRow (c :: cs) :: directRows rest false) := by
  refine ⟨?_, ?_, ?_, ?_, ?_⟩
  · simp [tableRows, hthead, htbody]
  · simp [convertTableToMarkdown, tableRows, hthead, htbody]
  · intro rest b
    simp [directRows]
  · intro c cs rest
    simp [directRows]
  · intro c cs rest
    simp [directRows]

/-- Witness for C8: with a zero-cell first row, the second row becomes the
header and the third a data row. -/
theorem C8_direct_rows_witness :
    querySelector (tagSel "thead") c8Table = none ∧
    querySelector (tagSel "tbody") c8Table = none ∧
    convertTableToMarkdown c8Table = "| A | B |\n| --- | --- |\n| 1 | 2 |\n\n" := by
  refine ⟨by rfl, by rfl, ?_⟩
  rw [(C8_direct_rows c8Table (by rfl) (by rfl)).2.1]
  decide

/-- C9 counterexample: the table renderer applied to an entirely empty
table returns the dangling blank line `"\n\n"`, not the empty string the
claim asserts. -/
theorem C9_counterexample :
    convertTableToMarkdown emptyTable = "\n\n" ∧
    convertTableToMarkdown emptyTable ≠ "" := by
  refine ⟨by decide, by decide⟩

/-- C9 (amended): a table yielding zero rendered rows makes the table
renderer return exactly `"\n\n"` (no header, separator or cell markup, and
never a failure); a fully empty table nevertheless renders to the empty
string at the node-renderer level, because the blank-element guard
intercepts it before the table renderer runs. -/
theorem C9_empty_table (t : Node) (h : tableRows t = []) :
    convertTableToMarkdown t = "\n\n" ∧
    (∀ ctx : Ctx, processNode (.elem "table" [] []) ctx = "") := by
  constructor
  · simp [convertTableToMarkdown, h, joinSep]
  · intro ctx
    have hB : isBlank (.elem "table" [] []) = true := by decide
    rw [processNode.eq_def, hB]
    simp

/-- Witness for C9: the empty table has zero rows, the table renderer
returns the blank line, and the node renderer returns the empty string. -/
theorem C9_empty_table_witness :
    tableRows emptyTable = [] ∧
    convertTableToMarkdown emptyTable = "\n\n" ∧
    processNode emptyTable rootCtx = "" := by
  refine ⟨by decide, (C9_empty_table emptyTable (by decide)).1, ?_⟩
  exact (C9_empty_table emptyTable (by decide)).2 rootCtx

/-- C10: table rendering is independent of the `isCode` and `noEscape`
flags (and of the whole context record); a cell renders as its flattened
text, trimmed, with every pipe escaped as `\|`; and inline markup inside a
cell (emphasis, inline code) is discarded, as the concrete table with an
emphasised `a|b` and a code element shows. -/
theorem C10_cell_text :
    (∀ (attrs : List (String × String)) (cs : List Node) (ctx1 ctx2 : Ctx),
      processNode (.elem "table" attrs cs) ctx1 = processNode (.elem "table" attrs cs) ctx2) ∧
    (∀ cell : Node, getCellText cell = replaceChar '|' "\\|" (jsTrim cell.textContent)) ∧
    convertTableToMarkdown markupCellTable = "| a\\|b z |\n| --- |\n\n" := by
  refine ⟨?_, ?_, ?_⟩
  · intro attrs cs ctx1 ctx2
    rw [processNode.eq_def, processNode.eq_def]
    cases h : isBlank (.elem "table" attrs cs) <;>
      simp [h, renderTag, headingLevel]
  · intro cell
    rfl
  · decide
